import Mathlib

/-!
# Verification of the Alan Terminal command-tracking core (`command_tracker.py`)

A shallow embedding of `CommandTracker` from `command_tracker.py` and proofs
about it.  Conventions used throughout:

* Python strings are Lean `String`s; Python `str.split()` (split on runs of
  whitespace, dropping empty pieces) is `pySplit`; Python slicing `s[:n]`
  (by code point) is `pySlice`.
* Instants (`time.time()`, `datetime.now()`) are seconds as `Nat`, threaded
  explicitly into each operation that reads the clock; `timedelta(days=d)`
  is `d * 86400` seconds, and the retention cutoff may be negative, so it
  lives in `Int`.
* Python `float` arithmetic in the similarity engine is modelled with exact
  rationals (`ℚ`); the constants 0.6 / 0.4 / 0.3 become 3/5, 2/5, 3/10.
* Code that can raise (`ZeroDivisionError`, out-of-fuel recursion) returns
  `Option`, `none` marking the raised / divergent case.
-/

/-- Python whitespace for `str.split()` / `str.strip()`:
space, tab, newline, carriage return, vertical tab, form feed. -/
def pyIsSpace (c : Char) : Bool :=
  c = ' ' || c = '\t' || c = '\n' || c = '\x0d' || c = '\x0b' || c = '\x0c'

/-- Worker for `pySplit`: `cur` is the reversed current token. -/
def pySplitAux : List Char → List Char → List String
  | [], [] => []
  | [], cur => [String.mk cur.reverse]
  | c :: rest, cur =>
    if pyIsSpace c then
      match cur with
      | [] => pySplitAux rest []
      | _ => String.mk cur.reverse :: pySplitAux rest []
    else
      pySplitAux rest (c :: cur)

/-- Python `s.split()`: split on runs of whitespace, no empty tokens. -/
def pySplit (s : String) : List String :=
  pySplitAux s.data []

/-- Python `s.strip()`: drop leading and trailing whitespace. -/
def pyStrip (s : String) : String :=
  String.mk (((s.data.dropWhile pyIsSpace).reverse.dropWhile pyIsSpace).reverse)

/-- Python slicing `s[:n]` (strings index by code point). -/
def pySlice (s : String) (n : Nat) : String :=
  String.mk (s.data.take n)

/-- Python substring test `needle in hay` on the underlying char lists. -/
def listContainsSub (needle : List Char) : List Char → Bool
  | [] => needle.isEmpty
  | c :: rest => needle.isPrefixOf (c :: rest) || listContainsSub needle rest

/-- Python `needle in hay` for strings. -/
def strContainsSub (hay needle : String) : Bool :=
  listContainsSub needle.data hay.data

/-- Keyword set for `contains_file_ops` in `_extract_command_features`. -/
def fileOpsKeywords : List String := ["ls", "cat", "grep", "find", "touch", "mkdir", "rm"]

/-- Keyword set for `contains_system_ops`. -/
def systemOpsKeywords : List String := ["ps", "top", "kill", "systemctl", "service"]

/-- Keyword set for `contains_network_ops`. -/
def networkOpsKeywords : List String := ["curl", "wget", "ping", "ssh", "scp"]

/-- Keyword set for `contains_package_ops`. -/
def packageOpsKeywords : List String := ["apt", "yum", "brew", "pip", "npm"]

/-- Python `s.lower()`, computed on the char list so it reduces in the kernel. -/
def pyLower (s : String) : String :=
  String.mk (s.data.map Char.toLower)

/-- `any(word in command.lower() for word in kws)`: Python `in` on strings is
substring containment over the whole lowercased command. -/
def containsAnyKeyword (command : String) (kws : List String) : Bool :=
  kws.any (fun w => strContainsSub (pyLower command) w)

/-- The feature dictionary built by `CommandTracker._extract_command_features`
(fields in the source's insertion order). -/
structure Features where
  command_length : Nat
  word_count : Nat
  has_pipes : Bool
  has_redirects : Bool
  has_sudo : Bool
  has_flags : Bool
  command_type : String
  request_length : Nat
  request_words : Nat
  contains_file_ops : Bool
  contains_system_ops : Bool
  contains_network_ops : Bool
  contains_package_ops : Bool
deriving DecidableEq, Repr

/-- `CommandTracker._extract_command_features(command, user_request)`. -/
def extract_command_features (command user_request : String) : Features :=
  { command_length := command.length
    word_count := (pySplit command).length
    has_pipes := strContainsSub command "|"
    has_redirects := strContainsSub command ">" || strContainsSub command "<"
    has_sudo := "sudo".data.isPrefixOf (pyStrip command).data
    has_flags := strContainsSub command "-"
    command_type := ((pySplit command).headD "")
    request_length := user_request.length
    request_words := (pySplit user_request).length
    contains_file_ops := containsAnyKeyword command fileOpsKeywords
    contains_system_ops := containsAnyKeyword command systemOpsKeywords
    contains_network_ops := containsAnyKeyword command networkOpsKeywords
    contains_package_ops := containsAnyKeyword command packageOpsKeywords }

/-- Decimal digit character: `digitCh d` is the ASCII digit for `d < 10`. -/
def digitCh (d : Nat) : Char := Char.ofNat (48 + d)

/-- Fuel-driven standard decimal rendering (most significant digit first). -/
def natDecAux : Nat → Nat → List Char
  | 0, _ => []
  | fuel + 1, n =>
    if n < 10 then [digitCh n]
    else natDecAux fuel (n / 10) ++ [digitCh (n % 10)]

/-- Standard decimal rendering of a natural number, as produced by Python's
`str(int)` / f-string interpolation for a nonnegative integer. -/
def natDec (n : Nat) : List Char := natDecAux (n + 1) n

/-- `f"{int(time.time())}_{len(self.history['commands'])}"` from
`CommandTracker.track_suggestion`. -/
def mk_tracking_id (t : Nat) (n : Nat) : String :=
  String.mk (natDec t ++ '_' :: natDec n)

/-- Decimal valuation of a digit string (used to invert `natDec`). -/
def decValAux (acc : Nat) : List Char → Nat
  | [] => acc
  | c :: cs => decValAux (acc * 10 + (c.toNat - 48)) cs

/-- `CommandTracker._generate_command_hash` normalizes by lowercasing and
collapsing whitespace runs; the source then takes a 16-hex-char SHA-256
prefix of this normal form.  No claim depends on the digest itself, so the
embedding stores the normal form (the digest is a function of it). -/
def normalize_command (command : String) : String :=
  String.intercalate " " (pySplit (pyLower command))

/-- One element of `history["commands"]` (a suggestion record), with the
fields written by `track_suggestion` / `track_user_decision` /
`track_execution_result`.  Instants are seconds as `Nat`. -/
structure CommandEntry where
  tracking_id : String
  timestamp : Nat
  user_request : String
  suggested_command : String
  command_hash : String
  model_used : String
  system_info : String
  features : Features
  accepted : Option Bool
  execution_success : Option Bool
  execution_output : Option String
  user_feedback : Option String
  decision_timestamp : Option Nat
  execution_timestamp : Option Nat
deriving DecidableEq, Repr

/-- One bucket of `history["patterns"]`. -/
structure PatternCounts where
  accepted : Nat
  rejected : Nat
  total : Nat
deriving DecidableEq, Repr

/-- `history["statistics"]`; the rate is exact (`ℚ`) where the source uses a
Python float. -/
structure Statistics where
  total_suggestions : Nat
  total_accepted : Nat
  total_rejected : Nat
  acceptance_rate : ℚ
deriving DecidableEq, Repr

/-- The in-memory store `self.history` (the unused `user_preferences` map of
the default schema is omitted: no operation ever reads or writes it). -/
structure History where
  commands : List CommandEntry
  patterns : List (String × PatternCounts)
  statistics : Statistics
deriving DecidableEq, Repr

/-- The empty default schema built by `_load_history` when no file exists. -/
def default_history : History :=
  { commands := []
    patterns := []
    statistics :=
      { total_suggestions := 0, total_accepted := 0, total_rejected := 0
        acceptance_rate := 0 } }

/-- Abstract state of the persisted file for `_load_history`: whether
`os.path.exists(self.data_file)` holds, and the parse outcome when it does
(`none` = `json.JSONDecodeError` / `IOError`, persistently). -/
structure StorageFile where
  file_present : Bool
  parse_result : Option History
deriving Repr

/-- `CommandTracker._load_history`, with explicit fuel for the recursive
call in the `except` branch (`return self._load_history()`): `none` means
the recursion consumed all fuel without producing a result, i.e. the call
diverges for every finite bound when the failure is persistent. -/
def load_history (fs : StorageFile) : Nat → Option History
  | 0 => none
  | fuel + 1 =>
    if fs.file_present then
      match fs.parse_result with
      | some h => some h
      | none => load_history fs fuel
    else
      some default_history

/-- `CommandTracker.track_suggestion(user_request, suggested_command,
model_used, system_info)` at clock value `now`; returns the tracking id and
the updated store (persistence is a whole-state overwrite of the result). -/
def track_suggestion (now : Nat) (user_request suggested_command model_used system_info : String)
    (h : History) : String × History :=
  let tid := mk_tracking_id now h.commands.length
  let entry : CommandEntry :=
    { tracking_id := tid
      timestamp := now
      user_request := user_request
      suggested_command := suggested_command
      command_hash := normalize_command suggested_command
      model_used := model_used
      system_info := system_info
      features := extract_command_features suggested_command user_request
      accepted := none
      execution_success := none
      execution_output := none
      user_feedback := none
      decision_timestamp := none
      execution_timestamp := none }
  (tid,
    { h with
      commands := h.commands ++ [entry]
      statistics :=
        { h.statistics with
          total_suggestions := h.statistics.total_suggestions + 1 } })

/-- Request-length class used by `_update_patterns` (word count of the
request: ≤ 3 short, ≤ 6 medium, else long). -/
def word_range (request : String) : String :=
  let n := (pySplit request).length
  if n ≤ 3 then "short" else if n ≤ 6 then "medium" else "long"

/-- Increment one pattern bucket (`patterns[key]`), creating it with zeroed
counters first when absent; Python dicts keep insertion order, so a new key
goes to the end. -/
def bumpPattern (key : String) (acc : Bool) : List (String × PatternCounts) →
    List (String × PatternCounts)
  | [] =>
    [(key,
      { accepted := if acc then 1 else 0
        rejected := if acc then 0 else 1
        total := 1 })]
  | (k, p) :: rest =>
    if k = key then
      (k,
        { accepted := p.accepted + (if acc then 1 else 0)
          rejected := p.rejected + (if acc then 0 else 1)
          total := p.total + 1 }) :: rest
    else
      (k, p) :: bumpPattern key acc rest

/-- `CommandTracker._update_patterns(command_entry)`: bump the command-type
bucket, then the request-length bucket, using the truthiness of the entry's
just-set `accepted` field. -/
def update_patterns (e : CommandEntry) (ps : List (String × PatternCounts)) :
    List (String × PatternCounts) :=
  let acc := e.accepted.getD false
  bumpPattern (word_range e.user_request) acc
    (bumpPattern e.features.command_type acc ps)

/-- Set the decision fields of one record
(`command["accepted"] = ...` etc. in `track_user_decision`). -/
def set_decision (now : Nat) (acc : Bool) (fb : Option String) (e : CommandEntry) :
    CommandEntry :=
  { e with accepted := some acc, user_feedback := fb, decision_timestamp := some now }

/-- The record-location loop of `track_user_decision`: update the first
record whose `tracking_id` matches and stop (`break`); `none` when no
record matches.  Also returns the updated record, which the source then
feeds to `_update_patterns`. -/
def update_first_decision (tid : String) (now : Nat) (acc : Bool) (fb : Option String) :
    List CommandEntry → Option (List CommandEntry × CommandEntry)
  | [] => none
  | e :: rest =>
    if e.tracking_id = tid then
      let e' := set_decision now acc fb e
      some (e' :: rest, e')
    else
      match update_first_decision tid now acc fb rest with
      | none => none
      | some (rest', upd) => some (e :: rest', upd)

/-- `CommandTracker.track_user_decision(tracking_id, accepted, user_feedback)`
at clock value `now`.  On a match it increments `total_accepted` or
`total_rejected`, recomputes
`acceptance_rate = total_accepted / total_suggestions * 100` (0 when
`total_suggestions == 0`), and updates the pattern buckets; with no match
the store is returned unchanged. -/
def track_user_decision (now : Nat) (tid : String) (acc : Bool) (fb : Option String)
    (h : History) : History :=
  match update_first_decision tid now acc fb h.commands with
  | none => h
  | some (cmds, e') =>
    let st := h.statistics
    let ta := st.total_accepted + (if acc then 1 else 0)
    let tr := st.total_rejected + (if acc then 0 else 1)
    let rate : ℚ :=
      if st.total_suggestions > 0 then ((ta : ℚ) / (st.total_suggestions : ℚ)) * 100 else 0
    { commands := cmds
      patterns := update_patterns e' h.patterns
      statistics :=
        { total_suggestions := st.total_suggestions
          total_accepted := ta
          total_rejected := tr
          acceptance_rate := rate } }

/-- `output[:1000] if output else None` from `track_execution_result`:
Python truthiness collapses both `None` and the empty string to `None`. -/
def clip_output : Option String → Option String
  | none => none
  | some s => if s = "" then none else some (pySlice s 1000)

/-- The record-location loop of `track_execution_result`: set the execution
fields on the first match and stop; no match leaves the list unchanged. -/
def update_first_execution (tid : String) (now : Nat) (succ : Bool) (out : Option String) :
    List CommandEntry → List CommandEntry
  | [] => []
  | e :: rest =>
    if e.tracking_id = tid then
      { e with
        execution_success := some succ
        execution_output := clip_output out
        execution_timestamp := some now } :: rest
    else
      e :: update_first_execution tid now succ out rest

/-- `CommandTracker.track_execution_result(tracking_id, success, output)` at
clock value `now`. -/
def track_execution_result (now : Nat) (tid : String) (succ : Bool) (out : Option String)
    (h : History) : History :=
  { h with commands := update_first_execution tid now succ out h.commands }

/-- `datetime.now() - timedelta(days=days_to_keep)` from `clear_old_data`,
in seconds; may be negative, hence `Int`. -/
def retention_cutoff (now : Nat) (days : Nat) : Int :=
  (now : Int) - (days : Int) * 86400

/-- `CommandTracker.clear_old_data(days_to_keep)` at clock value `now`:
keeps exactly the records with `timestamp > cutoff`, returns the pruned
store, the removed count, and whether `_save_history` was invoked
(only when at least one record was removed). -/
def clear_old_data (now : Nat) (days : Nat) (h : History) : History × Nat × Bool :=
  let kept := h.commands.filter (fun c => retention_cutoff now days < (c.timestamp : Int))
  let removed := h.commands.length - kept.length
  ({ h with commands := kept }, removed, decide (0 < removed))

/-- `set(request.lower().split())` as a duplicate-free token list. -/
def word_set (s : String) : List String :=
  (pySplit (pyLower s)).dedup

/-- `word_overlap / max(len(request_words), len(cmd_words))` from
`_find_similar_commands`.  The source has no guard: when both token sets
are empty the denominator is zero and Python raises `ZeroDivisionError`,
modelled as `none`. -/
def word_similarity (a b : String) : Option ℚ :=
  let A := word_set a
  let B := word_set b
  let m := max A.length B.length
  if m = 0 then none
  else some (((A.filter (fun w => B.contains w)).length : ℚ) / (m : ℚ))

/-- Boolean feature contribution: 1 when equal, else 0 (the loop increments
`feature_similarity` only on equality). -/
def bool_feature_sim (a b : Bool) : ℚ :=
  if a = b then 1 else 0

/-- Numeric feature contribution `1 - |a-b| / max(|a|, |b|, 1)`; this
division is guarded (denominator ≥ 1), unlike the word-similarity one. -/
def num_feature_sim (a b : Nat) : ℚ :=
  1 - |(a : ℚ) - (b : ℚ)| / max (max (a : ℚ) (b : ℚ)) 1

/-- The feature-comparison loop of `_find_similar_commands`.  Both dicts
always carry the same 13 keys; `command_type` (a string) matches neither
the bool branch nor the numeric branch and is skipped, so
`feature_count = 12` and the loop averages the other twelve
contributions. -/
def feature_similarity (f g : Features) : ℚ :=
  (num_feature_sim f.command_length g.command_length
      + num_feature_sim f.word_count g.word_count
      + bool_feature_sim f.has_pipes g.has_pipes
      + bool_feature_sim f.has_redirects g.has_redirects
      + bool_feature_sim f.has_sudo g.has_sudo
      + bool_feature_sim f.has_flags g.has_flags
      + num_feature_sim f.request_length g.request_length
      + num_feature_sim f.request_words g.request_words
      + bool_feature_sim f.contains_file_ops g.contains_file_ops
      + bool_feature_sim f.contains_system_ops g.contains_system_ops
      + bool_feature_sim f.contains_network_ops g.contains_network_ops
      + bool_feature_sim f.contains_package_ops g.contains_package_ops) / 12

/-- Combined score `word_similarity * 0.6 + feature_similarity * 0.4` for
one record (`none` when the word-similarity division raised). -/
def entry_score (request : String) (feats : Features) (c : CommandEntry) : Option ℚ :=
  match word_similarity request c.user_request with
  | none => none
  | some w => some (w * (3 / 5) + feature_similarity feats c.features * (2 / 5))

/-- The main loop of `_find_similar_commands`: skip records whose
`accepted` is `None` (pending), score the rest, keep those with score
`> 0.3`; a raised `ZeroDivisionError` at any scored record aborts the whole
call (`none`). -/
def collect_similar (request : String) (feats : Features) :
    List CommandEntry → Option (List (CommandEntry × ℚ))
  | [] => some []
  | c :: rest =>
    if c.accepted = none then collect_similar request feats rest
    else
      match entry_score request feats c with
      | none => none
      | some sc =>
        match collect_similar request feats rest with
        | none => none
        | some l => some (if sc > 3 / 10 then (c, sc) :: l else l)

/-- Stable insertion for the descending sort: a later element is placed
after every earlier element of equal score, matching Python's stable
`list.sort(key=..., reverse=True)`. -/
def insert_desc (x : CommandEntry × ℚ) : List (CommandEntry × ℚ) → List (CommandEntry × ℚ)
  | [] => [x]
  | y :: ys => if y.2 > x.2 then y :: insert_desc x ys else x :: y :: ys

/-- Stable descending sort by score. -/
def sort_desc : List (CommandEntry × ℚ) → List (CommandEntry × ℚ)
  | [] => []
  | x :: xs => insert_desc x (sort_desc xs)

/-- `CommandTracker._find_similar_commands(user_request, features, limit)`:
score the history, sort descending by score, return the first `limit`
(`none` when the call raises `ZeroDivisionError`). -/
def find_similar_commands (request : String) (feats : Features)
    (commands : List CommandEntry) (limit : Nat) : Option (List (CommandEntry × ℚ)) :=
  (collect_similar request feats commands).map (fun l => (sort_desc l).take limit)

/-- Run a sequence of `track_suggestion` calls (clock value, user request,
suggested command, model, system info), collecting the returned ids. -/
def run_suggestions : List (Nat × String × String × String × String) → History →
    List String × History
  | [], h => ([], h)
  | (t, r, c, m, si) :: rest, h =>
    let (tid, h') := track_suggestion t r c m si h
    let (ids, h'') := run_suggestions rest h'
    (tid :: ids, h'')

/-- Token-membership reading of the categorical booleans, written from the
spec's words ("some whitespace-delimited token of the command, compared
case-insensitively, is a member of the keyword set"), for comparison with
the source's substring test `containsAnyKeyword`. -/
def spec_token_ops (kws : List String) (command : String) : Bool :=
  (pySplit command).any (fun tok => kws.contains (pyLower tok))

/-- A fresh suggestion record as `track_suggestion` builds it; used to
assemble concrete histories for the scenario theorems. -/
def mkEntry (tid : String) (ts : Nat) (request command : String) : CommandEntry :=
  { tracking_id := tid
    timestamp := ts
    user_request := request
    suggested_command := command
    command_hash := normalize_command command
    model_used := "modelA"
    system_info := "macOS"
    features := extract_command_features command request
    accepted := none
    execution_success := none
    execution_output := none
    user_feedback := none
    decision_timestamp := none
    execution_timestamp := none }

/-- The single resolved record of the §8 similarity scenario:
`{request: "list files", command: "ls -la", decision: Accepted}`. -/
def similar_scenario_record : CommandEntry :=
  { mkEntry "t0" 0 "list files" "ls -la" with accepted := some true }

/-- A resolved record whose request is empty, reaching the unguarded
division in `_find_similar_commands`. -/
def empty_request_record : CommandEntry :=
  { mkEntry "e0" 0 "" "true" with accepted := some false }

/-- Store holding only `empty_request_record`. -/
def empty_request_history : History :=
  { commands := [empty_request_record]
    patterns := []
    statistics := { total_suggestions := 1, total_accepted := 0, total_rejected := 1
                    acceptance_rate := 0 } }

/-- C5 scenario, step 1: one suggestion tracked from the empty store. -/
def c5_step1 : String × History :=
  track_suggestion 1000 "list files" "ls -la" "modelA" "macOS" default_history

/-- C5 scenario, step 2: that suggestion accepted. -/
def c5_h2 : History := track_user_decision 1001 c5_step1.1 true none c5_step1.2

/-- C5 scenario, step 3: a second suggestion tracked. -/
def c5_step3 : String × History :=
  track_suggestion 1002 "show disk usage" "df -h" "modelA" "macOS" c5_h2

/-- C5 scenario, step 4: the second suggestion rejected. -/
def c5_h4 : History := track_user_decision 1003 c5_step3.1 false none c5_step3.2

/-- C4 counterexample, initial store: one old record (timestamp 0) whose id
was assigned when the store was empty. -/
def c4_h0 : History :=
  { commands := [mkEntry "0_0" 0 "old request" "ls" ]
    patterns := []
    statistics := { total_suggestions := 1, total_accepted := 0, total_rejected := 0
                    acceptance_rate := 0 } }

/-- C4 counterexample: a suggestion tracked at clock value 2592000
(= 30 days), store length 1, so its id is "2592000_1". -/
def c4_step1 : String × History :=
  track_suggestion 2592000 "first request" "cat a" "modelA" "macOS" c4_h0

/-- C4 counterexample: `clear_old_data(30)` at the same clock value removes
the old record (its timestamp 0 is not strictly newer than the cutoff 0)
but keeps the fresh one. -/
def c4_h2 : History := (clear_old_data 2592000 30 c4_step1.2).1

/-- C4 counterexample: a second suggestion in the same second, with the
store length back at 1, is assigned "2592000_1" again. -/
def c4_step2 : String × History :=
  track_suggestion 2592000 "second request" "grep b" "modelA" "macOS" c4_h2

/-- C8 counterexample store: one record with tracking id "a". -/
def c8_history : History :=
  { commands := [mkEntry "a" 0 "list files" "ls"]
    patterns := []
    statistics := { total_suggestions := 1, total_accepted := 0, total_rejected := 0
                    acceptance_rate := 0 } }

/-- C8 record whose execution fields already hold earlier values, so that a
subsequent `track_execution_result` call is observably a write (the stored
output changes), not a no-op. -/
def c8_prior_record : CommandEntry :=
  { mkEntry "a" 0 "list files" "ls" with
    execution_success := some false
    execution_output := some "prior output"
    execution_timestamp := some 3 }

/-- Store holding only `c8_prior_record`. -/
def c8_prior_history : History :=
  { commands := [c8_prior_record]
    patterns := []
    statistics := { total_suggestions := 1, total_accepted := 0, total_rejected := 0
                    acceptance_rate := 0 } }

/-- C9: a record created exactly at the retention cutoff
(timestamp 0, pruned at clock value 2592000 with 30 days kept). -/
def c9_boundary_history : History :=
  { commands := [mkEntry "b0" 0 "old request" "ls"]
    patterns := []
    statistics := { total_suggestions := 1, total_accepted := 0, total_rejected := 0
                    acceptance_rate := 0 } }

/-- C9 scenario store: one record 31 days old and one 29 days old at clock
value 8640000 (= 100 days). -/
def c9_scenario_history : History :=
  { commands := [mkEntry "old31" (8640000 - 31 * 86400) "a" "ls",
                 mkEntry "new29" (8640000 - 29 * 86400) "b" "cat f"]
    patterns := []
    statistics := { total_suggestions := 2, total_accepted := 0, total_rejected := 0
                    acceptance_rate := 0 } }

/-! ## Theorems -/

/-- C1: the source's `_load_history` does NOT recover once and proceed: on a
file that exists but persistently fails to parse, the bare recursive call
`return self._load_history()` re-runs the identical attempt, so no fuel
bound suffices (the call diverges); the function terminates precisely in
the no-file and successful-parse cases. -/
theorem load_history_unbounded_retry :
    (∀ fuel, load_history ⟨true, none⟩ fuel = none) ∧
    (∀ fuel h, load_history ⟨true, some h⟩ (fuel + 1) = some h) ∧
    (∀ fuel, load_history ⟨false, none⟩ (fuel + 1) = some default_history) := by
  refine ⟨fun fuel => ?_, fun fuel h => rfl, fun fuel => rfl⟩
  induction fuel with
  | zero => rfl
  | succ n ih => simpa [load_history] using ih

/-- C3: the lexical word-similarity computation is NOT total: when both
requests tokenize to the empty set the source divides by
`max(len(A), len(B)) = 0` and raises `ZeroDivisionError` (modelled `none`)
instead of returning 0, and the failure is reachable through
`_find_similar_commands` via a resolved record with an empty request.
The division fails exactly when both token sets are empty. -/
theorem word_similarity_divide_by_zero :
    word_similarity "" "" = none ∧
    find_similar_commands "" (extract_command_features "" "")
      empty_request_history.commands 5 = none ∧
    (∀ a b, word_similarity a b = none ↔ word_set a = [] ∧ word_set b = []) := by
  refine ⟨rfl, by decide, fun a b => ?_⟩
  unfold word_similarity
  rcases ha : word_set a with _ | ⟨x, xs⟩ <;> rcases hb : word_set b with _ | ⟨y, ys⟩ <;>
    simp

/-- Comparing a feature vector with itself gives similarity 1 (all twelve
compared features contribute 1). -/
theorem feature_similarity_self (f : Features) : feature_similarity f f = 1 := by
  have hb : ∀ b : Bool, bool_feature_sim b b = 1 := by
    intro b; simp [bool_feature_sim]
  have hn : ∀ a : Nat, num_feature_sim a a = 1 := by
    intro a; simp [num_feature_sim]
  simp [feature_similarity, hb, hn]
  norm_num

/-- Word similarity of the §8 scenario pair: overlap 1, max set size 2. -/
theorem word_similarity_show_list : word_similarity "show files" "list files" = some (1 / 2) := by
  have ha : word_set "show files" = ["show", "files"] := by decide
  have hb : word_set "list files" = ["list", "files"] := by decide
  have hf : (["show", "files"] : List String).filter
      (fun w => (["list", "files"] : List String).contains w) = ["files"] := by decide
  simp only [word_similarity, ha, hb, hf]
  norm_num

/-- Score of the §8 scenario record against the "show files" query. -/
theorem entry_score_scenario :
    entry_score "show files" (extract_command_features "ls -la" "show files")
      similar_scenario_record = some (7 / 10) := by
  have hreq : similar_scenario_record.user_request = "list files" := by decide
  have hfeat : extract_command_features "ls -la" "show files" = similar_scenario_record.features := by
    decide
  simp only [entry_score, hreq, word_similarity_show_list, hfeat,
    feature_similarity_self]
  norm_num

/-- C6: with one resolved record {request "list files", command "ls -la",
decision Accepted} and a findSimilar query for request "show files" with
features extracted from the identical command, the word similarity is 1/2,
the combined score is 7/10 > 3/10, and the record is in the result. -/
theorem find_similar_scenario :
    word_similarity "show files" "list files" = some (1 / 2) ∧
    entry_score "show files" (extract_command_features "ls -la" "show files")
        similar_scenario_record = some (7 / 10) ∧
    ((7 : ℚ) / 10 > 3 / 10) ∧
    find_similar_commands "show files" (extract_command_features "ls -la" "show files")
        [similar_scenario_record] 5 = some [(similar_scenario_record, 7 / 10)] := by
  have hacc : similar_scenario_record.accepted = some true := by decide
  refine ⟨word_similarity_show_list, entry_score_scenario, by norm_num, ?_⟩
  have hcoll : collect_similar "show files" (extract_command_features "ls -la" "show files")
      [similar_scenario_record] = some [(similar_scenario_record, 7 / 10)] := by
    simp only [collect_similar, hacc, entry_score_scenario, reduceCtorEq, if_false]
    norm_num
  simp [find_similar_commands, hcoll, sort_desc, insert_desc]

/-- The decision loop finds no record exactly when no stored record carries
the id. -/
theorem update_first_decision_eq_none (tid : String) (now : Nat) (acc : Bool)
    (fb : Option String) :
    ∀ l : List CommandEntry,
      update_first_decision tid now acc fb l = none ↔ ∀ c ∈ l, c.tracking_id ≠ tid
  | [] => by simp [update_first_decision]
  | e :: rest => by
    by_cases he : e.tracking_id = tid
    · simp [update_first_decision, he]
    · rw [update_first_decision]
      simp only [he, if_false]
      cases hu : update_first_decision tid now acc fb rest with
      | none =>
        have hall := (update_first_decision_eq_none tid now acc fb rest).mp hu
        exact ⟨fun _ c hc => by
            rcases List.mem_cons.mp hc with h1 | h2
            · exact h1 ▸ he
            · exact hall c h2,
          fun _ => rfl⟩
      | some p =>
        have : ¬ (∀ c ∈ rest, c.tracking_id ≠ tid) := by
          intro hall
          rw [(update_first_decision_eq_none tid now acc fb rest).mpr hall] at hu
          exact Option.noConfusion hu
        simp only [List.mem_cons]
        constructor
        · intro h; exact absurd h (by simp)
        · intro hall
          exact absurd (fun c hc => hall c (Or.inr hc)) this

/-- Bool-valued counterpart: the loop finds a record exactly when
`any` over the stored ids succeeds. -/
theorem update_first_decision_none_iff_any (tid : String) (now : Nat) (acc : Bool)
    (fb : Option String) (l : List CommandEntry) :
    update_first_decision tid now acc fb l = none ↔
      l.any (fun c => c.tracking_id == tid) = false := by
  rw [update_first_decision_eq_none]
  simp

/-- The acceptance rate after `track_user_decision`: on a matched id it is
recomputed as `total_accepted / total_suggestions * 100` from the updated
accepted count (0 when `total_suggestions = 0`); with no match it is left
unchanged. -/
theorem track_user_decision_rate (now : Nat) (tid : String) (acc : Bool)
    (fb : Option String) (h : History) :
    (track_user_decision now tid acc fb h).statistics.acceptance_rate =
      if h.commands.any (fun c => c.tracking_id == tid) then
        (if 0 < h.statistics.total_suggestions then
          ((h.statistics.total_accepted + (if acc then 1 else 0) : Nat) : ℚ) /
            (h.statistics.total_suggestions : ℚ) * 100
        else 0)
      else h.statistics.acceptance_rate := by
  cases hu : update_first_decision tid now acc fb h.commands with
  | none =>
    have hany := (update_first_decision_none_iff_any tid now acc fb h.commands).mp hu
    simp [track_user_decision, hu, hany]
  | some p =>
    have hany : h.commands.any (fun c => c.tracking_id == tid) = true := by
      by_contra hfalse
      rw [(update_first_decision_none_iff_any tid now acc fb h.commands).mpr
        (Bool.eq_false_iff.mpr hfalse)] at hu
      exact Option.noConfusion hu
    obtain ⟨cmds, e'⟩ := p
    simp [track_user_decision, hu, hany]

/-- C5: from the empty store, accepting the only record gives
`total_accepted = 1` and rate 100; rejecting a second record gives rate 50;
and in general `track_user_decision` on a matched id recomputes the rate as
`total_accepted / total_suggestions * 100`, never drifting it. -/
theorem acceptance_rate_recomputed :
    c5_h2.statistics.total_accepted = 1 ∧
    c5_h2.statistics.acceptance_rate = 100 ∧
    c5_h4.statistics.acceptance_rate = 50 ∧
    (∀ (now : Nat) (tid : String) (acc : Bool) (fb : Option String) (h : History),
      (track_user_decision now tid acc fb h).statistics.acceptance_rate =
        if h.commands.any (fun c => c.tracking_id == tid) then
          (if 0 < h.statistics.total_suggestions then
            ((h.statistics.total_accepted + (if acc then 1 else 0) : Nat) : ℚ) /
              (h.statistics.total_suggestions : ℚ) * 100
          else 0)
        else h.statistics.acceptance_rate) := by
  refine ⟨by decide, ?_, ?_, track_user_decision_rate⟩
  · show (track_user_decision 1001 c5_step1.1 true none c5_step1.2).statistics.acceptance_rate = 100
    rw [track_user_decision_rate]
    have hany : c5_step1.2.commands.any (fun c => c.tracking_id == c5_step1.1) = true := by
      decide
    have h1 : c5_step1.2.statistics.total_suggestions = 1 := by decide
    have h2 : c5_step1.2.statistics.total_accepted = 0 := by decide
    rw [hany, h1, h2]
    norm_num
  · show (track_user_decision 1003 c5_step3.1 false none c5_step3.2).statistics.acceptance_rate = 50
    rw [track_user_decision_rate]
    have hany : c5_step3.2.commands.any (fun c => c.tracking_id == c5_step3.1) = true := by
      decide
    have h1 : c5_step3.2.statistics.total_suggestions = 2 := by decide
    have h2 : c5_step3.2.statistics.total_accepted = 1 := by decide
    rw [hany, h1, h2]
    norm_num

/-- The execution loop leaves the list unchanged when no record carries the
id. -/
theorem update_first_execution_eq_self (tid : String) (now : Nat) (succ : Bool)
    (out : Option String) :
    ∀ l : List CommandEntry, (∀ c ∈ l, c.tracking_id ≠ tid) →
      update_first_execution tid now succ out l = l
  | [], _ => rfl
  | e :: rest, hall => by
    have he : e.tracking_id ≠ tid := hall e (List.mem_cons_self e rest)
    rw [update_first_execution, if_neg he,
      update_first_execution_eq_self tid now succ out rest
        (fun c hc => hall c (List.mem_cons_of_mem e hc))]

/-- C10: `track_user_decision` and `track_execution_result` with a tracking
id matching no stored record leave the entire in-memory store (records,
patterns, statistics) unchanged; no error is raised (both are total). -/
theorem unknown_tracking_id_noop (now : Nat) (tid : String) (acc : Bool)
    (fb : Option String) (succ : Bool) (out : Option String) (h : History)
    (hnone : ∀ c ∈ h.commands, c.tracking_id ≠ tid) :
    track_user_decision now tid acc fb h = h ∧
    track_execution_result now tid succ out h = h := by
  constructor
  · rw [track_user_decision,
      (update_first_decision_eq_none tid now acc fb h.commands).mpr hnone]
  · rw [track_execution_result,
      update_first_execution_eq_self tid now succ out h.commands hnone]

/-- C10 witness: a concrete store (the one-record C8 store, id "a") with
lookups for the unknown id "zz". -/
theorem unknown_tracking_id_noop_witness :
    track_user_decision 7 "zz" true none c8_history = c8_history ∧
    track_execution_result 7 "zz" true (some "out") c8_history = c8_history :=
  unknown_tracking_id_noop 7 "zz" true none true (some "out") c8_history (by decide)

/-- Every scored pair produced by the scan loop comes from a record whose
decision is resolved (`accepted ≠ None`). -/
theorem mem_collect_similar_resolved (request : String) (feats : Features) :
    ∀ (l : List CommandEntry) (res : List (CommandEntry × ℚ)) (x : CommandEntry × ℚ),
      collect_similar request feats l = some res → x ∈ res → x.1.accepted ≠ none
  | [], res, x, hres, hx => by
    rw [collect_similar] at hres
    cases hres
    exact absurd hx (List.not_mem_nil x)
  | c :: rest, res, x, hres, hx => by
    rw [collect_similar] at hres
    by_cases hc : c.accepted = none
    · rw [if_pos hc] at hres
      exact mem_collect_similar_resolved request feats rest res x hres hx
    · rw [if_neg hc] at hres
      cases hs : entry_score request feats c with
      | none => rw [hs] at hres; exact Option.noConfusion hres
      | some sc =>
        rw [hs] at hres
        cases hrest : collect_similar request feats rest with
        | none => rw [hrest] at hres; exact Option.noConfusion hres
        | some l' =>
          rw [hrest] at hres
          cases hres
          by_cases hgt : sc > 3 / 10
          · rw [if_pos hgt] at hx
            rcases List.mem_cons.mp hx with h1 | h2
            · rw [h1]; exact hc
            · exact mem_collect_similar_resolved request feats rest l' x hrest h2
          · rw [if_neg hgt] at hx
            exact mem_collect_similar_resolved request feats rest l' x hrest hx

/-- Insertion used by the descending sort only rearranges elements. -/
theorem mem_insert_desc (x y : CommandEntry × ℚ) :
    ∀ l : List (CommandEntry × ℚ), x ∈ insert_desc y l → x = y ∨ x ∈ l
  | [], hx => by
    rw [insert_desc] at hx
    rcases List.mem_singleton.mp hx with h
    exact Or.inl h
  | z :: zs, hx => by
    rw [insert_desc] at hx
    by_cases hzy : z.2 > y.2
    · rw [if_pos hzy] at hx
      rcases List.mem_cons.mp hx with h1 | h2
      · exact Or.inr (List.mem_cons.mpr (Or.inl h1))
      · rcases mem_insert_desc x y zs h2 with h3 | h4
        · exact Or.inl h3
        · exact Or.inr (List.mem_cons.mpr (Or.inr h4))
    · rw [if_neg hzy] at hx
      rcases List.mem_cons.mp hx with h1 | h2
      · exact Or.inl h1
      · exact Or.inr h2

/-- The descending sort only rearranges elements. -/
theorem mem_sort_desc (x : CommandEntry × ℚ) :
    ∀ l : List (CommandEntry × ℚ), x ∈ sort_desc l → x ∈ l
  | [], hx => by rw [sort_desc] at hx; exact hx
  | z :: zs, hx => by
    rw [sort_desc] at hx
    rcases mem_insert_desc x z (sort_desc zs) hx with h1 | h2
    · exact List.mem_cons.mpr (Or.inl h1)
    · exact List.mem_cons.mpr (Or.inr (mem_sort_desc x zs h2))

/-- C7: a record whose decision is still Pending (`accepted = None`) never
appears in a `_find_similar_commands` result, for any query, features,
store and limit. -/
theorem find_similar_never_returns_pending (request : String) (feats : Features)
    (commands : List CommandEntry) (limit : Nat) (res : List (CommandEntry × ℚ))
    (x : CommandEntry × ℚ)
    (hres : find_similar_commands request feats commands limit = some res)
    (hx : x ∈ res) : x.1.accepted ≠ none := by
  rw [find_similar_commands] at hres
  cases hcoll : collect_similar request feats commands with
  | none => rw [hcoll] at hres; exact Option.noConfusion hres
  | some l =>
    rw [hcoll] at hres
    cases hres
    exact mem_collect_similar_resolved request feats commands l x hcoll
      (mem_sort_desc x l (List.mem_of_mem_take hx))

/-- C7 witness: the resolved record of the rejected-command store is
returned and indeed not pending. -/
theorem find_similar_never_returns_pending_witness :
    ((empty_request_record, (2 : ℚ) / 5) : CommandEntry × ℚ).1.accepted ≠ none := by
  have hreq : empty_request_record.user_request = "" := by decide
  have hacc : empty_request_record.accepted = some false := by decide
  have hws : word_similarity "x" "" = some 0 := by
    have ha : word_set "x" = ["x"] := by decide
    have hb : word_set "" = [] := by decide
    have hf : (["x"] : List String).filter (fun w => ([] : List String).contains w) = [] := by
      decide
    simp only [word_similarity, ha, hb, hf]
    norm_num
  have hscore : entry_score "x" empty_request_record.features empty_request_record =
      some (2 / 5) := by
    simp only [entry_score, hreq, hws, feature_similarity_self]
    norm_num
  have hcoll : collect_similar "x" empty_request_record.features [empty_request_record] =
      some [(empty_request_record, 2 / 5)] := by
    simp only [collect_similar, hacc, hscore, reduceCtorEq, if_false]
    norm_num
  have hfind : find_similar_commands "x" empty_request_record.features
      [empty_request_record] 5 = some [(empty_request_record, 2 / 5)] := by
    simp [find_similar_commands, hcoll, sort_desc, insert_desc]
  exact find_similar_never_returns_pending "x" empty_request_record.features
    [empty_request_record] 5 [(empty_request_record, 2 / 5)]
    (empty_request_record, 2 / 5) hfind (List.mem_singleton.mpr rfl)

/-- C8 counterexample: `track_execution_result` with output `""` — a string
of 0 ≤ 1000 characters — overwrites the matched record's previously stored
output with `None` (Python truthiness: `output[:1000] if output else None`),
not with the string unmodified; the before/after stored values show the
write really happened. -/
theorem execution_output_empty_string_not_preserved :
    c8_prior_history.commands.map (fun c => c.execution_output) = [some "prior output"] ∧
    (track_execution_result 5 "a" true (some "") c8_prior_history).commands.map
        (fun c => c.execution_output) = [none] ∧
    ("" : String).length ≤ 1000 ∧
    (none : Option String) ≠ some "" := by
  refine ⟨by decide, by decide, by decide, by decide⟩

/-- The execution loop rewrites the first matching record in place — its
execution fields are set to the new values, everything before and after it
is untouched. -/
theorem update_first_execution_append (tid : String) (now : Nat) (succ : Bool)
    (out : Option String) :
    ∀ (l₁ : List CommandEntry) (r : CommandEntry) (l₂ : List CommandEntry),
      (∀ c ∈ l₁, c.tracking_id ≠ tid) → r.tracking_id = tid →
      update_first_execution tid now succ out (l₁ ++ r :: l₂) =
        l₁ ++ { r with execution_success := some succ
                       execution_output := clip_output out
                       execution_timestamp := some now } :: l₂
  | [], r, l₂, _, hr => by
    rw [List.nil_append, update_first_execution, if_pos hr, List.nil_append]
  | e :: l₁, r, l₂, h₁, hr => by
    have he : e.tracking_id ≠ tid := h₁ e (List.mem_cons_self e l₁)
    rw [List.cons_append, update_first_execution, if_neg he,
      update_first_execution_append tid now succ out l₁ r l₂
        (fun c hc => h₁ c (List.mem_cons_of_mem e hc)) hr]
    rfl

/-- C8 (amended): when the store decomposes as earlier non-matching records,
the first record carrying the id, and a tail, `track_execution_result`
rewrites exactly that record, storing `clip_output` as its execution
output — for a nonempty output exactly the first 1000 characters (the
string itself when it has at most 1000 characters, a 1000-character prefix
when longer); the empty string is collapsed to `None` by the source's
truthiness test. -/
theorem execution_output_truncation :
    (∀ (now : Nat) (tid : String) (succ : Bool) (out : Option String) (h : History)
        (l₁ : List CommandEntry) (r : CommandEntry) (l₂ : List CommandEntry),
      h.commands = l₁ ++ r :: l₂ → (∀ c ∈ l₁, c.tracking_id ≠ tid) → r.tracking_id = tid →
      (track_execution_result now tid succ out h).commands =
        l₁ ++ { r with execution_success := some succ
                       execution_output := clip_output out
                       execution_timestamp := some now } :: l₂) ∧
    (∀ s : String, s ≠ "" → clip_output (some s) = some (pySlice s 1000)) ∧
    clip_output (some "") = none ∧
    (∀ s : String, s.length ≤ 1000 → pySlice s 1000 = s) ∧
    (∀ s : String, 1000 < s.length →
      (pySlice s 1000).length = 1000 ∧ (pySlice s 1000).data = s.data.take 1000) := by
  refine ⟨?_, ?_, rfl, ?_, ?_⟩
  · intro now tid succ out h l₁ r l₂ hdec h₁ hr
    show update_first_execution tid now succ out h.commands = _
    rw [hdec]
    exact update_first_execution_append tid now succ out l₁ r l₂ h₁ hr
  · intro s hs
    rw [clip_output, if_neg hs]
  · intro s hs
    show String.mk (s.data.take 1000) = s
    rw [List.take_of_length_le hs]
  · intro s hs
    refine ⟨?_, rfl⟩
    show (s.data.take 1000).length = 1000
    rw [List.length_take]
    exact Nat.min_eq_left (Nat.le_of_lt hs)

/-- C8 witness: the amended theorem applied at the one-record store — the
matched record is rewritten with the clipped nonempty output — and at
concrete short strings. -/
theorem execution_output_truncation_witness :
    (track_execution_result 5 "a" true (some "xy") c8_prior_history).commands =
      [] ++ { c8_prior_record with
              execution_success := some true
              execution_output := clip_output (some "xy")
              execution_timestamp := some 5 } :: [] ∧
    clip_output (some "xy") = some (pySlice "xy" 1000) ∧
    pySlice "xy" 1000 = "xy" :=
  ⟨execution_output_truncation.1 5 "a" true (some "xy") c8_prior_history
      [] c8_prior_record [] rfl (by simp) (by decide),
   execution_output_truncation.2.1 "xy" (by decide),
   execution_output_truncation.2.2.2.1 "xy" (by decide)⟩

/-- C9 counterexample: a record timestamped exactly at the cutoff
(`now - 30 days`) is NOT strictly older than the cutoff, yet
`clear_old_data(30)` removes it — the source keeps only records with
`timestamp > cutoff`, so the boundary record is pruned. -/
theorem clear_old_data_removes_boundary_record :
    (clear_old_data 2592000 30 c9_boundary_history).1.commands = [] ∧
    ¬ (((mkEntry "b0" 0 "old request" "ls").timestamp : Int) <
        retention_cutoff 2592000 30) ∧
    (mkEntry "b0" 0 "old request" "ls") ∈ c9_boundary_history.commands := by
  refine ⟨by decide, by decide, by decide⟩

/-- C9 (amended): `clear_old_data(days)` keeps exactly the records whose
timestamp is strictly NEWER than `now - days` (so a record exactly at the
cutoff is removed together with the strictly older ones), returns the
number removed, persists exactly when that number is positive; the §8
scenario holds: at 30 days kept, a 31-day-old record is removed and a
29-day-old record kept. -/
theorem clear_old_data_semantics :
    (∀ (now days : Nat) (h : History) (c : CommandEntry), c ∈ h.commands →
      (c ∈ (clear_old_data now days h).1.commands ↔
        retention_cutoff now days < (c.timestamp : Int))) ∧
    (∀ (now days : Nat) (h : History),
      (clear_old_data now days h).2.1 =
        h.commands.length - (clear_old_data now days h).1.commands.length) ∧
    (∀ (now days : Nat) (h : History),
      (clear_old_data now days h).2.2 = decide (0 < (clear_old_data now days h).2.1)) ∧
    (clear_old_data 8640000 30 c9_scenario_history).1.commands =
      [mkEntry "new29" (8640000 - 29 * 86400) "b" "cat f"] ∧
    (clear_old_data 8640000 30 c9_scenario_history).2.1 = 1 ∧
    (clear_old_data 8640000 30 c9_scenario_history).2.2 = true := by
  refine ⟨?_, fun now days h => rfl, fun now days h => rfl, by decide, by decide, by decide⟩
  intro now days h c hc
  simp [clear_old_data, List.mem_filter, hc]

/-- C9 witness: the membership characterization applied to the 29-day-old
record of the scenario store. -/
theorem clear_old_data_semantics_witness :
    (mkEntry "new29" (8640000 - 29 * 86400) "b" "cat f") ∈
        (clear_old_data 8640000 30 c9_scenario_history).1.commands ↔
      retention_cutoff 8640000 30 <
        ((mkEntry "new29" (8640000 - 29 * 86400) "b" "cat f").timestamp : Int) :=
  clear_old_data_semantics.1 8640000 30 c9_scenario_history
    (mkEntry "new29" (8640000 - 29 * 86400) "b" "cat f") (by decide)

/-- Correctness of the embedded Python substring test: it succeeds exactly
when the needle occurs contiguously inside the haystack. -/
theorem listContainsSub_iff (needle : List Char) :
    ∀ hay : List Char, listContainsSub needle hay = true ↔
      ∃ pre post, hay = pre ++ needle ++ post
  | [] => by
    rw [listContainsSub]
    constructor
    · intro hn
      refine ⟨[], [], ?_⟩
      rw [List.isEmpty_iff.mp hn]
      rfl
    · rintro ⟨pre, post, hsplit⟩
      rcases List.append_eq_nil.mp (Eq.symm hsplit) with ⟨h1, h2⟩
      rcases List.append_eq_nil.mp h1 with ⟨_, h3⟩
      rw [h3]
      rfl
  | c :: rest => by
    rw [listContainsSub, Bool.or_eq_true, List.isPrefixOf_iff_prefix,
      listContainsSub_iff needle rest]
    constructor
    · rintro (⟨t, ht⟩ | ⟨pre, post, hsplit⟩)
      · exact ⟨[], t, by rw [← ht]; rfl⟩
      · exact ⟨c :: pre, post, by rw [hsplit]; rfl⟩
    · rintro ⟨pre, post, hsplit⟩
      cases pre with
      | nil => exact Or.inl ⟨post, by rw [hsplit]; rfl⟩
      | cons p ps =>
        refine Or.inr ⟨ps, post, ?_⟩
        have h2 : c :: rest = p :: (ps ++ needle ++ post) := hsplit
        exact (List.cons.inj h2).2

/-- String form of `listContainsSub_iff`. -/
theorem strContainsSub_iff (hay needle : String) :
    strContainsSub hay needle = true ↔
      ∃ pre post, hay.data = pre ++ needle.data ++ post :=
  listContainsSub_iff needle.data hay.data

/-- C2 counterexample: for command "pstree" the source sets
`contains_system_ops` (the keyword "ps" is a substring of "pstree") even
though no whitespace-delimited token of the command is a member of the
system-ops keyword set — the claimed token-membership semantics is false. -/
theorem contains_ops_substring_counterexample :
    (extract_command_features "pstree" "list processes").contains_system_ops = true ∧
    spec_token_ops systemOpsKeywords "pstree" = false := by
  refine ⟨by decide, by decide⟩

/-- C2 (amended): each of the four categorical booleans is true exactly
when some keyword of its set occurs as a SUBSTRING of the lowercased
command (Python `word in command.lower()`), not when it is a
whitespace-delimited token. -/
theorem contains_ops_substring_semantics (command request : String) :
    ((extract_command_features command request).contains_file_ops = true ↔
      ∃ w ∈ fileOpsKeywords, ∃ pre post, (pyLower command).data = pre ++ w.data ++ post) ∧
    ((extract_command_features command request).contains_system_ops = true ↔
      ∃ w ∈ systemOpsKeywords, ∃ pre post, (pyLower command).data = pre ++ w.data ++ post) ∧
    ((extract_command_features command request).contains_network_ops = true ↔
      ∃ w ∈ networkOpsKeywords, ∃ pre post, (pyLower command).data = pre ++ w.data ++ post) ∧
    ((extract_command_features command request).contains_package_ops = true ↔
      ∃ w ∈ packageOpsKeywords, ∃ pre post, (pyLower command).data = pre ++ w.data ++ post) := by
  refine ⟨?_, ?_, ?_, ?_⟩ <;>
    simp only [extract_command_features, containsAnyKeyword, List.any_eq_true,
      strContainsSub_iff]

/-- ASCII code of a decimal digit character. -/
theorem digitCh_toNat (d : Nat) (h : d < 10) : (digitCh d).toNat = 48 + d := by
  interval_cases d <;> decide

/-- Decimal digit characters are never the underscore. -/
theorem digitCh_ne_underscore (d : Nat) (h : d < 10) : digitCh d ≠ '_' := by
  interval_cases d <;> decide

/-- All characters of the decimal rendering are digits, never `'_'`. -/
theorem natDecAux_no_underscore :
    ∀ (fuel n : Nat) (c : Char), c ∈ natDecAux fuel n → c ≠ '_'
  | 0, n, c, hc => absurd hc (List.not_mem_nil c)
  | fuel + 1, n, c, hc => by
    rw [natDecAux] at hc
    by_cases hn : n < 10
    · rw [if_pos hn] at hc
      rw [List.mem_singleton.mp hc]
      exact digitCh_ne_underscore n hn
    · rw [if_neg hn] at hc
      rcases List.mem_append.mp hc with h1 | h2
      · exact natDecAux_no_underscore fuel (n / 10) c h1
      · rw [List.mem_singleton.mp h2]
        exact digitCh_ne_underscore (n % 10) (Nat.mod_lt n (by omega))

/-- Appending one digit multiplies the decimal valuation by ten. -/
theorem decValAux_append (c : Char) (xs : List Char) :
    ∀ acc : Nat, decValAux acc (xs ++ [c]) = decValAux acc xs * 10 + (c.toNat - 48) := by
  induction xs with
  | nil => intro acc; rfl
  | cons x xs ih => intro acc; exact ih (acc * 10 + (x.toNat - 48))

/-- The decimal valuation inverts the decimal rendering. -/
theorem decValAux_natDecAux :
    ∀ (fuel n : Nat), n < fuel → decValAux 0 (natDecAux fuel n) = n
  | 0, n, h => absurd h (Nat.not_lt_zero n)
  | fuel + 1, n, h => by
    rw [natDecAux]
    by_cases hn : n < 10
    · rw [if_pos hn]
      show 0 * 10 + ((digitCh n).toNat - 48) = n
      rw [digitCh_toNat n hn]
      omega
    · rw [if_neg hn, decValAux_append,
        decValAux_natDecAux fuel (n / 10) (by omega),
        digitCh_toNat (n % 10) (Nat.mod_lt n (by omega))]
      omega

/-- The decimal rendering is injective. -/
theorem natDec_inj {a b : Nat} (h : natDec a = natDec b) : a = b := by
  have ha : decValAux 0 (natDec a) = a := decValAux_natDecAux (a + 1) a (Nat.lt_succ_self a)
  have hb : decValAux 0 (natDec b) = b := decValAux_natDecAux (b + 1) b (Nat.lt_succ_self b)
  rw [← ha, ← hb, h]

/-- Splitting at a separator absent from both leading parts is unambiguous. -/
theorem append_underscore_inj :
    ∀ (xs zs ys ws : List Char), (∀ c ∈ xs, c ≠ '_') → (∀ c ∈ zs, c ≠ '_') →
      xs ++ '_' :: ys = zs ++ '_' :: ws → xs = zs ∧ ys = ws
  | [], [], ys, ws, _, _, h => ⟨rfl, (List.cons.inj h).2⟩
  | [], z :: zs, ys, ws, _, hz, h => by
    exfalso
    exact hz z (List.mem_cons_self z zs) (Eq.symm (List.cons.inj h).1)
  | x :: xs, [], ys, ws, hx, _, h => by
    exfalso
    exact hx x (List.mem_cons_self x xs) (List.cons.inj h).1
  | x :: xs, z :: zs, ys, ws, hx, hz, h => by
    have h1 := (List.cons.inj h).1
    have h2 := append_underscore_inj xs zs ys ws
      (fun c hc => hx c (List.mem_cons_of_mem x hc))
      (fun c hc => hz c (List.mem_cons_of_mem z hc))
      (List.cons.inj h).2
    exact ⟨by rw [h1, h2.1], h2.2⟩

/-- The tracking-id string determines both the clock second and the store
length it was built from. -/
theorem mk_tracking_id_inj {t n t' n' : Nat}
    (h : mk_tracking_id t n = mk_tracking_id t' n') : t = t' ∧ n = n' := by
  have hdata : natDec t ++ '_' :: natDec n = natDec t' ++ '_' :: natDec n' :=
    congrArg String.data h
  have hsplit := append_underscore_inj (natDec t) (natDec t') (natDec n) (natDec n')
    (natDecAux_no_underscore (t + 1) t) (natDecAux_no_underscore (t' + 1) t') hdata
  exact ⟨natDec_inj hsplit.1, natDec_inj hsplit.2⟩

/-- `track_suggestion` appends exactly one record. -/
theorem track_suggestion_commands_length (t : Nat) (r c m si : String) (h : History) :
    (track_suggestion t r c m si h).2.commands.length = h.commands.length + 1 := by
  simp [track_suggestion]

/-- Every id returned by a run of suggestions was built from a store length
at least that of the starting store. -/
theorem mem_run_suggestions_ids :
    ∀ (ops : List (Nat × String × String × String × String)) (h : History) (id : String),
      id ∈ (run_suggestions ops h).1 →
      ∃ t n, h.commands.length ≤ n ∧ id = mk_tracking_id t n
  | [], h, id, hid => absurd hid (List.not_mem_nil id)
  | (t, r, c, m, si) :: rest, h, id, hid => by
    rcases List.mem_cons.mp hid with h1 | h2
    · exact ⟨t, h.commands.length, Nat.le_refl _, h1⟩
    · obtain ⟨t', n', hn', hid'⟩ :=
        mem_run_suggestions_ids rest (track_suggestion t r c m si h).2 id h2
      refine ⟨t', n', ?_, hid'⟩
      rw [track_suggestion_commands_length] at hn'
      omega

/-- C4 (amended): over any sequence of `track_suggestion` calls — arbitrary
clock values and inputs, but with no interleaved record removal — the
returned tracking ids are pairwise distinct, because the length component
strictly increases; with `clear_old_data` interleaved this fails (see the
collision counterexample). -/
theorem run_suggestions_ids_nodup :
    ∀ (ops : List (Nat × String × String × String × String)) (h : History),
      ((run_suggestions ops h).1).Nodup
  | [], h => List.nodup_nil
  | (t, r, c, m, si) :: rest, h => by
    show (mk_tracking_id t h.commands.length ::
        (run_suggestions rest (track_suggestion t r c m si h).2).1).Nodup
    rw [List.nodup_cons]
    constructor
    · intro hmem
      obtain ⟨t', n', hn', hid⟩ :=
        mem_run_suggestions_ids rest (track_suggestion t r c m si h).2
          (mk_tracking_id t h.commands.length) hmem
      rw [track_suggestion_commands_length] at hn'
      have := (mk_tracking_id_inj hid).2
      omega
    · exact run_suggestions_ids_nodup rest (track_suggestion t r c m si h).2

/-- C4 counterexample: with one `clear_old_data` interleaved between two
same-second `track_suggestion` calls, the second call returns an id that is
already carried by a record present in the store at that moment. -/
theorem tracking_id_collision :
    c4_step2.1 = c4_step1.1 ∧
    c4_step2.1 ∈ c4_h2.commands.map (fun c => c.tracking_id) := by
  refine ⟨by decide, by decide⟩
